import Mathlib

/-!
Verification of the glyph-os prototype: the merge engine of
runtime/rust/glyph-spu/src/main.rs and the in-memory glyph store of
runtime/rust/glyphd/src/main.rs, shallowly embedded in Lean.

Machine integers (u32 activation counts, u64/u128 timestamps) are embedded
as Nat: no arithmetic in the program can overflow them (the only operations
are max and hexadecimal formatting).  The f64 energy field is embedded as
the rationals, restricted - as the specification restricts its claims - to
finite values; Rust's comparison on finite doubles agrees with the linear
order modelled here.  The timestamp drawn from the system clock becomes an
explicit Nat argument of the operations that read the clock.
-/

namespace GlyphOS

/-- One lowercase hexadecimal digit, as produced by Rust's `x` formatting. -/
def hexDigit (d : Nat) : Char :=
  if d < 10 then Char.ofNat ('0'.toNat + d) else Char.ofNat ('a'.toNat + (d - 10))

/-- Numeric value of a lowercase hexadecimal digit character. -/
def hexVal (c : Char) : Nat :=
  if c.toNat ≤ '9'.toNat then c.toNat - '0'.toNat else 10 + (c.toNat - 'a'.toNat)

/-- Hexadecimal digits of a number, least significant digit first; empty for 0. -/
def toHexRev : Nat → List Char
  | 0 => []
  | n + 1 => hexDigit ((n + 1) % 16) :: toHexRev ((n + 1) / 16)
decreasing_by exact Nat.div_lt_self (Nat.succ_pos n) (by omega)

/-- Hexadecimal digits of a number, most significant first, as Rust's
plain `x` formatting prints them. -/
def toHex (n : Nat) : List Char :=
  if n = 0 then ['0'] else (toHexRev n).reverse

/-- Value of a least-significant-first list of hexadecimal digit characters. -/
def fromHexRev : List Char → Nat
  | [] => 0
  | c :: cs => hexVal c + 16 * fromHexRev cs

/-- Value of a most-significant-first list of hexadecimal digit characters. -/
def fromHex (l : List Char) : Nat :=
  fromHexRev l.reverse

/-- Digits of Rust's zero-padding formatting to minimum width w,
mirroring a format string such as 064x. -/
def padHex (w n : Nat) : List Char :=
  List.replicate (w - (toHex n).length) '0' ++ toHex n

/-- The string Rust's zero-padded hexadecimal formatting prints for n at
minimum width w. -/
def hexPad (w n : Nat) : String :=
  String.mk (padHex w n)

/-- Decode a string of hexadecimal digit characters. -/
def fromHexStr (s : String) : Nat :=
  fromHex s.data

/-- The ID generation both services perform inline: the pair of Rust's
zero-padded 64-wide hexadecimal print of the clock's nanosecond timestamp
and the string commit_ followed by its 16-wide print, from lines 49-54 of
glyphd/src/main.rs. -/
def id_generate (ts : Nat) : String × String :=
  (hexPad 64 ts, "commit_" ++ hexPad 16 ts)

namespace Spu

/-- The merge-variant glyph of glyph-spu/src/main.rs lines 15-22: id,
content, an f64 energy (embedded as a rational, see the file header), a
u32 activation count and a u64 last-update time. -/
structure Glyph where
  id : String
  content : String
  energy : ℚ
  activation_count : Nat
  last_update_time : Nat
deriving DecidableEq

/-- The merge_glyphs function of glyph-spu/src/main.rs lines 41-75.  The
clock read on line 55 becomes the explicit argument ts. -/
def merge_glyphs (ts : Nat) (g1 g2 : Glyph) : Glyph :=
  let pr := if g2.energy ≤ g1.energy then (g1, g2) else (g2, g1)
  let primary := pr.1
  let secondary := pr.2
  { id := hexPad 64 ts
    content := primary.content ++ " + " ++ secondary.content
    energy := primary.energy + secondary.energy
    activation_count := max primary.activation_count secondary.activation_count
    last_update_time := max primary.last_update_time secondary.last_update_time }

end Spu

namespace Daemon

/-- serde_json values, as carried in the daemon glyph's metadata field. -/
inductive Json where
  | null
  | bool (b : Bool)
  | num (q : ℚ)
  | str (s : String)
  | arr (xs : List Json)
  | obj (fields : List (String × Json))

/-- The daemon-variant glyph of glyphd/src/main.rs lines 16-22. -/
structure Glyph where
  id : String
  content : String
  metadata : Json
  commit_id : Option String

/-- The GlyphStore of glyphd/src/main.rs line 24: the key-to-record map
held inside the lock, identifier to glyph. -/
def Store : Type := String → Option Glyph

/-- HashMap::insert as used on line 63 of glyphd/src/main.rs: insert or
unconditionally overwrite the entry at the glyph's identifier. -/
def Store.put (s : Store) (g : Glyph) : Store :=
  fun k => if k = g.id then some g else s k

/-- The empty store the daemon starts with (line 90 of glyphd/src/main.rs). -/
def Store.empty : Store := fun _ => none

/-- The HTTP status values the core signals; only NOT_FOUND is produced
(line 76 of glyphd/src/main.rs). -/
inductive HttpStatus where
  | notFound
deriving DecidableEq

/-- The create request body of glyphd/src/main.rs lines 31-35: content and
an optional metadata value. -/
structure CreateGlyphRequest where
  content : String
  metadata : Option Json

/-- The create response body of glyphd/src/main.rs lines 37-41. -/
structure CreateGlyphResponse where
  id : String
  commit_id : String

/-- The create_glyph handler of glyphd/src/main.rs lines 43-67: mint an
identifier and commit marker from the clock timestamp ts, build the glyph
record (missing metadata defaults to the empty JSON object), insert it
into the store, and answer with the identifier and marker. -/
def create_glyph (s : Store) (ts : Nat) (req : CreateGlyphRequest) :
    Store × CreateGlyphResponse :=
  let id := (id_generate ts).1
  let commit_id := (id_generate ts).2
  let glyph : Glyph :=
    { id := id
      content := req.content
      metadata := req.metadata.getD (Json.obj [])
      commit_id := some commit_id }
  (s.put glyph, { id := id, commit_id := commit_id })

/-- The query_glyph handler of glyphd/src/main.rs lines 69-78: look the
identifier up under a read lock and answer with a clone of the record, or
with NOT_FOUND when absent. -/
def query_glyph (s : Store) (id : String) : Except HttpStatus Glyph :=
  match s id with
  | some glyph => Except.ok glyph
  | none => Except.error HttpStatus.notFound

/-- The query handler as a state transition: it holds only a read lock, so
the store it leaves behind is the store it was given. -/
def query_step (s : Store) (id : String) : Except HttpStatus Glyph × Store :=
  (query_glyph s id, s)

/-- Store states reachable from the daemon's initially empty store through
the exposed operations; only create writes the store. -/
inductive Reachable : Store → Prop where
  | empty : Reachable Store.empty
  | create (s : Store) (ts : Nat) (req : CreateGlyphRequest) :
      Reachable s → Reachable (create_glyph s ts req).1

/-- The store invariant of claim C10: every stored record sits under its
own identifier, and carries the commit marker minted from the same
timestamp its identifier encodes. -/
def StoreInv (s : Store) : Prop :=
  ∀ k g, s k = some g →
    g.id = k ∧
      ∃ ts, g.id = (id_generate ts).1 ∧ g.commit_id = some (id_generate ts).2

end Daemon

theorem hexVal_hexDigit : ∀ d, d < 16 → hexVal (hexDigit d) = d := by decide

theorem hexVal_zero_char : hexVal '0' = 0 := by decide

theorem fromHexRev_toHexRev (n : Nat) : fromHexRev (toHexRev n) = n := by
  induction n using Nat.strong_induction_on with
  | _ n ih =>
    match n with
    | 0 => simp [toHexRev, fromHexRev]
    | m + 1 =>
      rw [toHexRev, fromHexRev,
        hexVal_hexDigit _ (Nat.mod_lt _ (by omega)),
        ih ((m + 1) / 16) (Nat.div_lt_self (by omega) (by omega))]
      omega

theorem fromHexRev_replicate_zero (k : Nat) :
    fromHexRev (List.replicate k '0') = 0 := by
  induction k with
  | zero => rfl
  | succ k ih => simp [List.replicate, fromHexRev, ih, hexVal_zero_char]

theorem fromHexRev_append_zeros (l : List Char) (k : Nat) :
    fromHexRev (l ++ List.replicate k '0') = fromHexRev l := by
  induction l with
  | nil => simpa using fromHexRev_replicate_zero k
  | cons c cs ih => simp [fromHexRev, ih]

theorem fromHex_toHex (n : Nat) : fromHex (toHex n) = n := by
  by_cases h : n = 0
  · subst h; rfl
  · simp only [fromHex, toHex, if_neg h, List.reverse_reverse]
    exact fromHexRev_toHexRev n

theorem fromHex_padHex (w n : Nat) : fromHex (padHex w n) = n := by
  simp only [padHex, fromHex, List.reverse_append, List.reverse_replicate]
  rw [fromHexRev_append_zeros]
  exact fromHex_toHex n

theorem fromHexStr_hexPad (w n : Nat) : fromHexStr (hexPad w n) = n :=
  fromHex_padHex w n

theorem hexPad_injective (w a b : Nat) (h : hexPad w a = hexPad w b) : a = b := by
  have h2 := congrArg fromHexStr h
  rwa [fromHexStr_hexPad, fromHexStr_hexPad] at h2

theorem toHexRev_length_le : ∀ w n, n < 16 ^ w → (toHexRev n).length ≤ w := by
  intro w
  induction w with
  | zero =>
    intro n h
    interval_cases n
    simp [toHexRev]
  | succ w ih =>
    intro n h
    match n with
    | 0 => simp [toHexRev]
    | m + 1 =>
      rw [toHexRev]
      simp only [List.length_cons, Nat.succ_le_succ_iff]
      apply ih
      rw [Nat.div_lt_iff_lt_mul (by omega)]
      calc m + 1 < 16 ^ (w + 1) := h
        _ = 16 ^ w * 16 := by ring

theorem toHex_length_le (w n : Nat) (hw : 1 ≤ w) (h : n < 16 ^ w) :
    (toHex n).length ≤ w := by
  by_cases h0 : n = 0
  · subst h0; simpa [toHex] using hw
  · simp only [toHex, if_neg h0, List.length_reverse]
    exact toHexRev_length_le w n h

theorem hexPad_length (w n : Nat) (hw : 1 ≤ w) (h : n < 16 ^ w) :
    (hexPad w n).length = w := by
  have hl := toHex_length_le w n hw h
  simp only [hexPad, String.length, padHex, List.length_append,
    List.length_replicate]
  omega

/-- C1: merge selects as primary the glyph with the larger energy, with the
first argument primary on an energy tie, and the result content is the
primary's content, the fixed separator, then the secondary's content; on a
tie the result of merge g1 g2 begins with g1's content while the result of
merge g2 g1 begins with g2's content. -/
theorem merge_precedence_content (ts : Nat) (g1 g2 : Spu.Glyph) :
    (g2.energy ≤ g1.energy →
      (Spu.merge_glyphs ts g1 g2).content = g1.content ++ " + " ++ g2.content) ∧
    (g1.energy < g2.energy →
      (Spu.merge_glyphs ts g1 g2).content = g2.content ++ " + " ++ g1.content) ∧
    (g1.energy = g2.energy →
      (∃ r, (Spu.merge_glyphs ts g1 g2).content = g1.content ++ r) ∧
      (∃ r, (Spu.merge_glyphs ts g2 g1).content = g2.content ++ r)) := by
  refine ⟨fun h => ?_, fun h => ?_, fun h => ?_⟩
  · simp [Spu.merge_glyphs, h]
  · have h' : ¬ g2.energy ≤ g1.energy := not_le.mpr h
    simp [Spu.merge_glyphs, h']
  · refine ⟨⟨" + " ++ g2.content, ?_⟩, ⟨" + " ++ g1.content, ?_⟩⟩
    · rw [← String.append_assoc]
      simp [Spu.merge_glyphs, le_of_eq h.symm]
    · rw [← String.append_assoc]
      simp [Spu.merge_glyphs, le_of_eq h]

/-- C1 witness: at energies 5 against 3 the first argument wins, at 3
against 5 the second wins, and on a 2-2 tie the first argument's content
comes first. -/
theorem merge_precedence_content_witness :
    (Spu.merge_glyphs 0 ⟨"i1", "A", 5, 0, 0⟩ ⟨"i2", "B", 3, 0, 0⟩).content
        = "A" ++ " + " ++ "B" ∧
    (Spu.merge_glyphs 0 ⟨"i1", "A", 3, 0, 0⟩ ⟨"i2", "B", 5, 0, 0⟩).content
        = "B" ++ " + " ++ "A" ∧
    ∃ r, (Spu.merge_glyphs 0 ⟨"i1", "A", 2, 0, 0⟩ ⟨"i2", "B", 2, 0, 0⟩).content
        = "A" ++ r :=
  ⟨(merge_precedence_content 0 _ _).1 (by norm_num),
   (merge_precedence_content 0 _ _).2.1 (by norm_num),
   ((merge_precedence_content 0 ⟨"i1", "A", 2, 0, 0⟩ ⟨"i2", "B", 2, 0, 0⟩).2.2
      rfl).1⟩

/-- C2: the merged energy is exactly the sum of the two input energies, with
no clamping, hence the same for both argument orders. -/
theorem merge_energy_sum (ts : Nat) (g1 g2 : Spu.Glyph) :
    (Spu.merge_glyphs ts g1 g2).energy = g1.energy + g2.energy ∧
    (Spu.merge_glyphs ts g1 g2).energy = (Spu.merge_glyphs ts g2 g1).energy := by
  constructor
  · by_cases h : g2.energy ≤ g1.energy
    · simp [Spu.merge_glyphs, h]
    · simp [Spu.merge_glyphs, h, add_comm]
  · by_cases h : g2.energy ≤ g1.energy <;> by_cases h' : g1.energy ≤ g2.energy
    · simp [Spu.merge_glyphs, h, h', add_comm]
    · simp [Spu.merge_glyphs, h, h']
    · simp [Spu.merge_glyphs, h, h']
    · exact absurd (le_of_not_le h) h'

/-- C3: the merged activation count is the maximum of the two inputs'
activation counts, and likewise for the last-update time. -/
theorem merge_max_fields (ts : Nat) (g1 g2 : Spu.Glyph) :
    (Spu.merge_glyphs ts g1 g2).activation_count
        = max g1.activation_count g2.activation_count ∧
    (Spu.merge_glyphs ts g1 g2).last_update_time
        = max g1.last_update_time g2.last_update_time := by
  by_cases h : g2.energy ≤ g1.energy <;>
    simp [Spu.merge_glyphs, h, Nat.max_comm]

/-- C8: the merge result's identifier is minted from the timestamp alone -
two calls at the same timestamp agree on the identifier whatever the
inputs, and calls at distinct timestamps differ on it even with identical
inputs. -/
theorem merge_id_fresh (ts ts' : Nat) (g1 g2 g1' g2' : Spu.Glyph) :
    (Spu.merge_glyphs ts g1 g2).id = (Spu.merge_glyphs ts g1' g2').id ∧
    (ts ≠ ts' →
      (Spu.merge_glyphs ts g1 g2).id ≠ (Spu.merge_glyphs ts' g1 g2).id) := by
  refine ⟨rfl, fun hne heq => hne ?_⟩
  exact hexPad_injective 64 ts ts' heq

/-- C8 witness: at timestamp 1 two unrelated input pairs share the result
identifier, and the same input pair at timestamps 1 and 2 does not. -/
theorem merge_id_fresh_witness :
    (Spu.merge_glyphs 1 ⟨"a", "A", 1, 0, 0⟩ ⟨"b", "B", 2, 0, 0⟩).id
        = (Spu.merge_glyphs 1 ⟨"c", "C", 7, 3, 9⟩ ⟨"d", "D", 8, 4, 5⟩).id ∧
    (Spu.merge_glyphs 1 ⟨"a", "A", 1, 0, 0⟩ ⟨"b", "B", 2, 0, 0⟩).id
        ≠ (Spu.merge_glyphs 2 ⟨"a", "A", 1, 0, 0⟩ ⟨"b", "B", 2, 0, 0⟩).id :=
  ⟨(merge_id_fresh 1 2 ⟨"a", "A", 1, 0, 0⟩ ⟨"b", "B", 2, 0, 0⟩
      ⟨"c", "C", 7, 3, 9⟩ ⟨"d", "D", 8, 4, 5⟩).1,
   (merge_id_fresh 1 2 ⟨"a", "A", 1, 0, 0⟩ ⟨"b", "B", 2, 0, 0⟩
      ⟨"c", "C", 7, 3, 9⟩ ⟨"d", "D", 8, 4, 5⟩).2 (by omega)⟩

/-- C4: a create with content c and metadata M, answered with identifier
id, is followed (with no intervening operation) by a successful query of
id returning a record with content c and metadata M. -/
theorem create_then_query (s : Daemon.Store) (ts : Nat) (c : String)
    (M : Daemon.Json) :
    ∃ g, Daemon.query_glyph (Daemon.create_glyph s ts ⟨c, some M⟩).1
          (Daemon.create_glyph s ts ⟨c, some M⟩).2.id = Except.ok g ∧
      g.content = c ∧ g.metadata = M := by
  refine ⟨⟨(id_generate ts).1, c, M, some (id_generate ts).2⟩, ?_, rfl, rfl⟩
  simp [Daemon.create_glyph, Daemon.query_glyph, Daemon.Store.put]

/-- C5: a query signals NOT_FOUND exactly when no record is stored under
the identifier; when one is, the query returns that record and the store
is left unchanged. -/
theorem query_glyph_spec (s : Daemon.Store) (i : String) :
    ((Daemon.query_glyph s i = Except.error Daemon.HttpStatus.notFound) ↔
        s i = none) ∧
    (∀ g, s i = some g → Daemon.query_glyph s i = Except.ok g) ∧
    (Daemon.query_step s i).2 = s := by
  refine ⟨?_, fun g h => ?_, rfl⟩
  · cases h : s i <;> simp [Daemon.query_glyph, h]
  · simp [Daemon.query_glyph, h]

/-- C5 witness: a one-record store answers the stored record at its key,
and the empty store answers NOT_FOUND. -/
theorem query_glyph_spec_witness :
    Daemon.query_glyph
        (Daemon.Store.put Daemon.Store.empty ⟨"a", "c", Daemon.Json.null, none⟩)
        "a" = Except.ok ⟨"a", "c", Daemon.Json.null, none⟩ ∧
    Daemon.query_glyph Daemon.Store.empty "zzz"
        = Except.error Daemon.HttpStatus.notFound :=
  ⟨(query_glyph_spec
      (Daemon.Store.put Daemon.Store.empty ⟨"a", "c", Daemon.Json.null, none⟩)
      "a").2.1 ⟨"a", "c", Daemon.Json.null, none⟩ rfl,
   (query_glyph_spec Daemon.Store.empty "zzz").1.mpr rfl⟩

/-- C6: put installs the glyph at its own identifier, silently replacing
whatever was there, and leaves every other key unchanged. -/
theorem store_put_spec (s : Daemon.Store) (g : Daemon.Glyph) :
    Daemon.Store.put s g g.id = some g ∧
    ∀ k, k ≠ g.id → Daemon.Store.put s g k = s k := by
  refine ⟨?_, fun k hk => ?_⟩
  · simp [Daemon.Store.put]
  · simp [Daemon.Store.put, hk]

/-- C6 witness: putting a record at key a over a store holding an older
record at a replaces it and leaves key b alone. -/
theorem store_put_spec_witness :
    Daemon.Store.put
        (Daemon.Store.put Daemon.Store.empty ⟨"a", "old", Daemon.Json.null, none⟩)
        ⟨"a", "new", Daemon.Json.null, none⟩ "a"
      = some ⟨"a", "new", Daemon.Json.null, none⟩ ∧
    Daemon.Store.put
        (Daemon.Store.put Daemon.Store.empty ⟨"a", "old", Daemon.Json.null, none⟩)
        ⟨"a", "new", Daemon.Json.null, none⟩ "b"
      = Daemon.Store.put Daemon.Store.empty ⟨"a", "old", Daemon.Json.null, none⟩ "b" :=
  ⟨(store_put_spec
      (Daemon.Store.put Daemon.Store.empty ⟨"a", "old", Daemon.Json.null, none⟩)
      ⟨"a", "new", Daemon.Json.null, none⟩).1,
   (store_put_spec
      (Daemon.Store.put Daemon.Store.empty ⟨"a", "old", Daemon.Json.null, none⟩)
      ⟨"a", "new", Daemon.Json.null, none⟩).2 "b" (by decide)⟩

/-- C7: ID generation at timestamp ts yields as identifier the 64-wide
hexadecimal encoding of ts (width exactly 64 while ts fits, and it decodes
back to ts), and as version marker the fixed prefix commit_ followed by a
narrower, 16-wide hexadecimal encoding of the same ts; the operation is
total, with no inputs beyond the clock and no failure case. -/
theorem id_generate_spec (ts : Nat) (h : ts < 16 ^ 64) :
    (id_generate ts).1.length = 64 ∧ fromHexStr (id_generate ts).1 = ts ∧
    ∃ v, (id_generate ts).2 = "commit_" ++ v ∧ fromHexStr v = ts ∧
      (ts < 16 ^ 16 → v.length = 16) :=
  ⟨hexPad_length 64 ts (by omega) h, fromHexStr_hexPad 64 ts,
   hexPad 16 ts, rfl, fromHexStr_hexPad 16 ts,
   fun h16 => hexPad_length 16 ts (by omega) h16⟩

/-- C7 witness: the generator evaluated at timestamp 0. -/
theorem id_generate_spec_witness :
    (id_generate 0).1.length = 64 ∧ fromHexStr (id_generate 0).1 = 0 ∧
    ∃ v, (id_generate 0).2 = "commit_" ++ v ∧ fromHexStr v = 0 ∧
      v.length = 16 := by
  obtain ⟨h1, h2, v, hv, hd, hl⟩ := id_generate_spec 0 (by positivity)
  exact ⟨h1, h2, v, hv, hd, hl (by positivity)⟩

/-- C9: a create whose request omits the metadata field stores the empty
JSON object as the record's metadata, and a query of the returned
identifier reports that empty object. -/
theorem create_default_metadata (s : Daemon.Store) (ts : Nat) (c : String) :
    ∃ g, Daemon.query_glyph (Daemon.create_glyph s ts ⟨c, none⟩).1
          (Daemon.create_glyph s ts ⟨c, none⟩).2.id = Except.ok g ∧
      g.metadata = Daemon.Json.obj [] := by
  refine ⟨⟨(id_generate ts).1, c, Daemon.Json.obj [], some (id_generate ts).2⟩,
    ?_, rfl⟩
  simp [Daemon.create_glyph, Daemon.query_glyph, Daemon.Store.put]

/-- C10: in every store reachable from the empty store, each record sits
under its own identifier and carries the commit marker minted at its
creation; and a query does not modify the store. -/
theorem store_reachable_inv :
    (∀ s, Daemon.Reachable s → Daemon.StoreInv s) ∧
    (∀ (s : Daemon.Store) (i : String), (Daemon.query_step s i).2 = s) := by
  refine ⟨fun s h => ?_, fun s i => rfl⟩
  induction h with
  | empty =>
    intro k g hk
    exact absurd hk (by simp [Daemon.Store.empty])
  | create s' ts req _ ih =>
    intro k g hk
    simp only [Daemon.create_glyph, Daemon.Store.put] at hk
    split at hk
    · rename_i hkid
      cases hk
      exact ⟨hkid.symm, ts, rfl, rfl⟩
    · exact ih k g hk

/-- C10 witness: the invariant holds of the store reached by one create
from the empty store. -/
theorem store_reachable_inv_witness :
    Daemon.StoreInv (Daemon.create_glyph Daemon.Store.empty 3 ⟨"x", none⟩).1 :=
  store_reachable_inv.1 _
    (Daemon.Reachable.create Daemon.Store.empty 3 ⟨"x", none⟩
      Daemon.Reachable.empty)

end GlyphOS
